import Mathlib

/-!
Shallow embedding of `pkg/manager/watch_endpoints.go` (kube-vip endpoint
watcher) and proofs about it.

The file models:
* the Kubernetes `Endpoints` snapshot shape consumed by `watchEndpoint`;
* the local-endpoint resolver loop (`watch_endpoints.go` lines 75-86);
* the per-event controller state machine of `watchEndpoint`'s
  `for event := range ch` loop (lines 63-156), as a sequential step
  function over an explicit controller state;
* `updateServiceEndpointAnnotation` (lines 159-199) on top of a model of
  client-go's `retry.RetryOnConflict` / `retry.DefaultRetry`;
* a tiny interleaving model of the stop path (context cancellation versus
  the election goroutine) used to examine the synchronous-stop property.
-/

namespace KubeVip

/-- One address entry of an `Endpoints` subset: `v1.EndpointAddress` with the
fields `watchEndpoint` reads (`IP`, `NodeName`); `NodeName` is a nullable
pointer in the source, hence `Option`. -/
structure EndpointAddress where
  ip : String
  nodeName : Option String
deriving DecidableEq, Repr

/-- One `v1.EndpointSubset`, restricted to the `Addresses` field read by the
resolver loop. -/
structure EndpointSubset where
  addresses : List EndpointAddress
deriving DecidableEq, Repr

/-- A `v1.Endpoints` snapshot, restricted to `Subsets`. -/
structure Endpoints where
  subsets : List EndpointSubset
deriving DecidableEq, Repr

/-- Ordered association list standing in for a Go `map[string]string` of
service annotations (order is irrelevant to lookups; the list form keeps
everything computable). -/
def AnnMap := List (String × String)
deriving DecidableEq, Repr

/-- Read a key from the map; `none` models an absent key. -/
def lookupKey : AnnMap → String → Option String
  | [], _ => none
  | (k, v) :: rest, key => if k = key then some v else lookupKey rest key

/-- Go map assignment `m[key] = v`: overwrite an existing entry or append. -/
def insertKey : AnnMap → String → String → AnnMap
  | [], key, v => [(key, v)]
  | (k, w) :: rest, key, v =>
      if k = key then (k, v) :: rest else (k, w) :: insertKey rest key v

/-- A `v1.Service` restricted to what the watcher touches: identity and the
annotations map, which is `nil`-able in Go, hence `Option`. -/
structure Service where
  name : String
  inNamespace : String
  anns : Option AnnMap
deriving DecidableEq, Repr

/-- Inner loop of the resolver (`watch_endpoints.go` lines 77-85): walk the
addresses of one subset, keeping `IP` whenever `NodeName` is non-nil and
equals `id`. -/
def subsetLocal (id : String) : List EndpointAddress → List String
  | [] => []
  | a :: rest =>
      match a.nodeName with
      | some n => if id = n then a.ip :: subsetLocal id rest else subsetLocal id rest
      | none => subsetLocal id rest

/-- Outer loop of the resolver (`watch_endpoints.go` lines 76-86): the
`localendpoints` slice appended across subsets in order. -/
def localendpoints (id : String) : List EndpointSubset → List String
  | [] => []
  | s :: rest => subsetLocal id s.addresses ++ localendpoints id rest

/-- All address entries of a snapshot, in the snapshot's native order. -/
def flatAddresses : List EndpointSubset → List EndpointAddress
  | [] => []
  | s :: rest => s.addresses ++ flatAddresses rest

/-- Modelled from the spec (section 4.2), for comparison with the code's
resolver: include an address iff its hosting-node identifier is present and
equals `nodeID`, in the snapshot's native address order. -/
def specResolve (id : String) (subsets : List EndpointSubset) : List String :=
  ((flatAddresses subsets).filter (fun a => a.nodeName = some id)).map (fun a => a.ip)

theorem subsetLocal_eq_filter (id : String) (addrs : List EndpointAddress) :
    subsetLocal id addrs
      = (addrs.filter (fun a => a.nodeName = some id)).map (fun a => a.ip) := by
  induction addrs with
  | nil => rfl
  | cons a rest ih =>
      cases h : a.nodeName with
      | none => simp [subsetLocal, h, ih, List.filter_cons]
      | some n =>
          by_cases hid : id = n
          · subst hid
            simp [subsetLocal, h, ih, List.filter_cons]
          · simp [subsetLocal, h, hid, ih, List.filter_cons, Ne.symm hid]

/-- Claim C5: the resolver returns exactly the addresses whose hosting-node
identifier is present and equal to the given node identifier, in the
snapshot's native address order.  `localendpoints` is a total pure function
(it never fails, and the `none` case of `nodeName` is handled without any
dereference), and it coincides with the spec-side characterisation
`specResolve` on every snapshot. -/
theorem localendpoints_eq_specResolve (id : String) (subsets : List EndpointSubset) :
    localendpoints id subsets = specResolve id subsets := by
  induction subsets with
  | nil => rfl
  | cons s rest ih =>
      simp [localendpoints, specResolve, flatAddresses, List.filter_append,
        subsetLocal_eq_filter, ih]

/-- The object carried by an Added/Modified watch event: either a decodable
`*v1.Endpoints` or something else, modelling the failable type assertion
`event.Object.(*v1.Endpoints)` on line 69. -/
inductive WatchObject where
  | endpoints (ep : Endpoints)
  | other
deriving DecidableEq, Repr

/-- A `watch.Event` as consumed by the loop on lines 64-152. -/
inductive WatchEvent where
  | added (obj : WatchObject)
  | modified (obj : WatchObject)
  | deleted
  | errorEvent
deriving DecidableEq, Repr

/-- Controller state of one `watchEndpoint` invocation.

`cancelled` is the state of the single `endpointContext` created on line 24:
the source never recreates it (the recreation on lines 94-95 is commented
out), so one boolean suffices for the whole run.  `electionActive` mirrors
the flag of line 25; in this sequential model the election goroutine's
reaction to a cancellation (returning from `StartServicesLeaderElection`,
setting `electionActive = false` and breaking out of its loop) is folded
into the point where `cancel()` is called, i.e. the task is assumed to have
quiesced before the next event is processed.  `starts` counts the
invocations of `sm.StartServicesLeaderElection` (line 121): the spawned
goroutine calls it only when the context is not yet cancelled (line 119),
and the model treats the call as blocking until cancellation (spontaneous
failures and the internal restart of line 117 are below this abstraction).
`svcAnns` is the in-memory `service.Annotations` map mutated on line 98. -/
structure CtrlState where
  lastKnownGoodEndpoint : String
  cancelled : Bool
  electionActive : Bool
  starts : Nat
  svcAnns : Option AnnMap
deriving DecidableEq, Repr

/-- `cancel()` plus the election task's quiescence (see `CtrlState`). -/
def cancelEpoch (s : CtrlState) : CtrlState :=
  { s with cancelled := true, electionActive := false }

/-- The `if !electionActive { go func() ... }` block on lines 114-133: when
no election is active a goroutine is spawned; it invokes
`StartServicesLeaderElection` only if `endpointContext` is not cancelled
(line 119), otherwise it exits immediately without starting anything. -/
def spawnElection (s : CtrlState) : CtrlState :=
  if s.electionActive then s
  else if s.cancelled then s
  else { s with electionActive := true, starts := s.starts + 1 }

/-- String literal key of line 97. -/
def egressKey : String := "kube-vip.io/egress"

/-- String literal key of lines 98 and 178. -/
def activeEndpointKey : String := "kube-vip.io/active-endpoint"

/-- Read `service.Annotations[k]`; a Go read on a `nil` map yields the zero
value, which the source only ever compares against `"true"`, so `none` is an
adequate model of both the nil map and the absent key. -/
def lookupAnns (o : Option AnnMap) (k : String) : Option String :=
  match o with
  | some m => lookupKey m k
  | none => none

/-- Go map assignment on the (possibly nil) annotations map.  Assignment to
a nil map would panic; in the source this assignment (line 98) is guarded by
the egress check, which is false on a nil map, so the `none` branch is
unreachable where it is used. -/
def assignAnn (o : Option AnnMap) (k v : String) : Option AnnMap :=
  match o with
  | some m => some (insertKey m k v)
  | none => none

/-- Processing of one decoded Added/Modified snapshot, `watch_endpoints.go`
lines 75-141.  The Go `break` on line 108 leaves the `switch`, skipping the
spawn block, which is why the `stillExists` branch returns the state
unchanged. -/
def stepSnapshot (id : String) (ep : Endpoints) (s : CtrlState) : CtrlState :=
  let locals := localendpoints id ep.subsets
  if locals.length ≠ 0 then
    if s.lastKnownGoodEndpoint = "" then
      let lkg := locals.headI
      let anns1 :=
        if lookupAnns s.svcAnns egressKey = some "true" then
          assignAnn s.svcAnns activeEndpointKey lkg
        else s.svcAnns
      spawnElection { s with lastKnownGoodEndpoint := lkg, svcAnns := anns1 }
    else
      if s.lastKnownGoodEndpoint ∈ locals then s
      else spawnElection (cancelEpoch s)
  else
    if s.lastKnownGoodEndpoint ≠ "" then
      cancelEpoch { s with lastKnownGoodEndpoint := "" }
    else s

/-- How the `for event := range ch` loop returned. -/
inductive LoopOutcome where
  | finished
  | decodeError
deriving DecidableEq, Repr

/-- The event loop of `watchEndpoint` (lines 64-156): a decode failure
cancels and returns the parse error (lines 70-73); Deleted closes
`exitFunction` (which stops the watcher and cancels the context) and
returns nil (lines 143-147); Error events are only logged (lines 148-151);
the channel closing (e.g. on shutdown, which stops the retry watcher) falls
out of the loop and returns nil (lines 154-156). -/
def runLoop (id : String) : List WatchEvent → CtrlState → CtrlState × LoopOutcome
  | [], s => (s, .finished)
  | e :: rest, s =>
      match e with
      | .added obj =>
          match obj with
          | .endpoints ep => runLoop id rest (stepSnapshot id ep s)
          | .other => (cancelEpoch s, .decodeError)
      | .modified obj =>
          match obj with
          | .endpoints ep => runLoop id rest (stepSnapshot id ep s)
          | .other => (cancelEpoch s, .decodeError)
      | .deleted => (cancelEpoch s, .finished)
      | .errorEvent => runLoop id rest s

/-- State at the top of the loop: fresh context (line 24), no election
(line 25), empty tracked endpoint (line 63), the service's annotation map
as passed in. -/
def initState (svc : Service) : CtrlState :=
  { lastKnownGoodEndpoint := ""
    cancelled := false
    electionActive := false
    starts := 0
    svcAnns := svc.anns }

/-- An Added/Modified event whose payload fails the `*v1.Endpoints` type
assertion of line 69. -/
def malformedUpdate : WatchEvent → Bool
  | .added .other => true
  | .modified .other => true
  | _ => false

/-- Claim C3: an Added/Modified event with an empty resolved local-address
set stops the election (cancels the epoch) and unsets
`lastKnownGoodEndpoint` when it was set, and changes no controller state
when it was already unset (`watch_endpoints.go` lines 134-141). -/
theorem empty_resolved_idles (id : String) (ep : Endpoints) (s : CtrlState)
    (hempty : localendpoints id ep.subsets = []) :
    (s.lastKnownGoodEndpoint ≠ "" →
       stepSnapshot id ep s
         = { s with lastKnownGoodEndpoint := "", cancelled := true, electionActive := false })
  ∧ (s.lastKnownGoodEndpoint = "" → stepSnapshot id ep s = s) := by
  cases s
  constructor <;> intro h <;> simp_all [stepSnapshot, cancelEpoch]

theorem empty_resolved_idles_witness :
    localendpoints "node-1" (Endpoints.mk []).subsets = [] ∧
    stepSnapshot "node-1" (Endpoints.mk []) (CtrlState.mk "10.0.0.5" false true 1 (some []))
      = CtrlState.mk "" true false 1 (some []) :=
  ⟨by decide,
    (empty_resolved_idles "node-1" (Endpoints.mk [])
      (CtrlState.mk "10.0.0.5" false true 1 (some [])) (by decide)).1 (by decide)⟩

/-- Claim C4: a Deleted event stops the watch session and any running
election (via `close(exitFunction)`, whose supervising goroutine runs
`rw.Stop()` and `cancel()`, lines 51-57 and 143-147), returns with no
error, and no event after the Deleted event is ever processed: the run is
the same whatever follows the Deleted event. -/
theorem deleted_terminates (id : String) (pre post : List WatchEvent) (s : CtrlState) :
    runLoop id (pre ++ WatchEvent.deleted :: post) s
      = runLoop id (pre ++ [WatchEvent.deleted]) s
  ∧ runLoop id (WatchEvent.deleted :: post) s = (cancelEpoch s, LoopOutcome.finished) := by
  refine ⟨?_, rfl⟩
  induction pre generalizing s with
  | nil => rfl
  | cons e pre ih =>
      cases e with
      | added obj =>
          cases obj with
          | endpoints ep =>
              simp only [List.cons_append, runLoop]
              exact ih (stepSnapshot id ep s)
          | other => rfl
      | modified obj =>
          cases obj with
          | endpoints ep =>
              simp only [List.cons_append, runLoop]
              exact ih (stepSnapshot id ep s)
          | other => rfl
      | deleted => rfl
      | errorEvent =>
          simp only [List.cons_append, runLoop]
          exact ih s

/-- Claim C6: an Added/Modified event whose payload cannot be decoded as an
endpoint snapshot cancels the epoch and makes the loop return a non-nil
error (lines 69-73); and if no such malformed event occurs, the loop never
returns an error — Deleted, Error events and channel closure (shutdown) all
return nil — so decode failures are the only error exits of the run loop. -/
theorem decode_failure_fatal (id : String) (post : List WatchEvent) (s : CtrlState) :
    runLoop id (WatchEvent.added WatchObject.other :: post) s
      = (cancelEpoch s, LoopOutcome.decodeError)
  ∧ runLoop id (WatchEvent.modified WatchObject.other :: post) s
      = (cancelEpoch s, LoopOutcome.decodeError)
  ∧ ∀ evs : List WatchEvent, (∀ e ∈ evs, malformedUpdate e = false) →
      (runLoop id evs s).2 = LoopOutcome.finished := by
  refine ⟨rfl, rfl, ?_⟩
  intro evs
  induction evs generalizing s with
  | nil => intro _; rfl
  | cons e rest ih =>
      intro hall
      cases e with
      | added obj =>
          cases obj with
          | endpoints ep =>
              exact ih (stepSnapshot id ep s) fun e he => hall e (List.mem_cons_of_mem _ he)
          | other =>
              exact absurd (hall _ (List.mem_cons_self _ _)) (by simp [malformedUpdate])
      | modified obj =>
          cases obj with
          | endpoints ep =>
              exact ih (stepSnapshot id ep s) fun e he => hall e (List.mem_cons_of_mem _ he)
          | other =>
              exact absurd (hall _ (List.mem_cons_self _ _)) (by simp [malformedUpdate])
      | deleted => rfl
      | errorEvent => exact ih s fun e he => hall e (List.mem_cons_of_mem _ he)

theorem decode_failure_fatal_witness :
    runLoop "node-1" [WatchEvent.added WatchObject.other]
        (initState (Service.mk "plndr" "default" (some [])))
      = (cancelEpoch (initState (Service.mk "plndr" "default" (some []))),
         LoopOutcome.decodeError)
  ∧ (runLoop "node-1" [WatchEvent.errorEvent, WatchEvent.deleted]
        (initState (Service.mk "plndr" "default" (some [])))).2 = LoopOutcome.finished :=
  ⟨(decode_failure_fatal "node-1" [] (initState (Service.mk "plndr" "default" (some [])))).1,
   (decode_failure_fatal "node-1" [] (initState (Service.mk "plndr" "default" (some [])))).2.2
     [WatchEvent.errorEvent, WatchEvent.deleted] (by decide)⟩

/-- Snapshot with one address `10.0.0.5` hosted on `node-1`. -/
def epA : Endpoints := ⟨[⟨[⟨"10.0.0.5", some "node-1"⟩]⟩]⟩

/-- Snapshot where `10.0.0.5` is gone but `10.0.0.6` is hosted on `node-1`
(resolved set non-empty, tracked address lost). -/
def epB : Endpoints := ⟨[⟨[⟨"10.0.0.6", some "node-1"⟩]⟩]⟩

/-- A service without the egress annotation. -/
def svcPlain : Service := ⟨"plndr", "default", some []⟩

/-- Claim C1, evaluated at the failing input: after the tracked address
`10.0.0.5` disappears from the resolved set (second event) and a subsequent
snapshot again yields a non-empty resolved set (third event), the code is
left with the single `endpointContext` of line 24 cancelled, no election
running, `StartServicesLeaderElection` invoked only once in total, and
`lastKnownGoodEndpoint` still holding the stale address: the loss path
(lines 109-112) does not clear it, and since the context recreation of
lines 94-95 is commented out, the re-spawn of lines 114-133 finds a
cancelled context (line 119) and never starts a new election — there is no
fresh epoch token to start it under. -/
theorem loss_never_restarts_election :
    (runLoop "node-1"
        [WatchEvent.added (WatchObject.endpoints epA),
         WatchEvent.modified (WatchObject.endpoints epB),
         WatchEvent.modified (WatchObject.endpoints epB)]
        (initState svcPlain)).1
      = CtrlState.mk "10.0.0.5" true false 1 (some []) := by
  decide

/-- An Added/Modified event that decodes and resolves to a non-empty
local-address set for node `id`. -/
def nonEmptyUpdate (id : String) : WatchEvent → Bool
  | .added (.endpoints ep) => !(localendpoints id ep.subsets).isEmpty
  | .modified (.endpoints ep) => !(localendpoints id ep.subsets).isEmpty
  | _ => false

/-- The decoded snapshot of an Added/Modified event, if any. -/
def eventSnapshot : WatchEvent → Option Endpoints
  | .added (.endpoints ep) => some ep
  | .modified (.endpoints ep) => some ep
  | _ => none

/-- Resolved local-address set of an event for node `id`. -/
def eventLocals (id : String) (e : WatchEvent) : List String :=
  match eventSnapshot e with
  | some ep => localendpoints id ep.subsets
  | none => []

/-- Invariant for the start-once proof: exactly one
`StartServicesLeaderElection` invocation so far, and the election task is
running iff the single epoch context is not cancelled. -/
def onceInv (s : CtrlState) : Prop :=
  s.starts = 1 ∧ s.electionActive = !s.cancelled

theorem stepSnapshot_preserves_onceInv (id : String) (ep : Endpoints) (s : CtrlState)
    (hne : localendpoints id ep.subsets ≠ []) (h : onceInv s) :
    onceInv (stepSnapshot id ep s) := by
  obtain ⟨h1, h2⟩ := h
  cases s with
  | mk lkg c a st anns =>
      simp only [onceInv] at *
      simp only [stepSnapshot, spawnElection, cancelEpoch]
      split_ifs <;> simp_all [List.length_eq_zero]

theorem stepSnapshot_init_onceInv (id : String) (ep : Endpoints) (svc : Service)
    (hne : localendpoints id ep.subsets ≠ []) :
    onceInv (stepSnapshot id ep (initState svc)) := by
  simp [onceInv, stepSnapshot, initState, spawnElection, List.length_eq_zero, hne]

theorem runLoop_preserves_onceInv (id : String) (evs : List WatchEvent) :
    ∀ s : CtrlState, (∀ e ∈ evs, nonEmptyUpdate id e = true) → onceInv s →
      onceInv (runLoop id evs s).1 := by
  induction evs with
  | nil => exact fun s _ h => h
  | cons e rest ih =>
      intro s hall h
      cases e with
      | added obj =>
          cases obj with
          | endpoints ep =>
              refine ih _ (fun e he => hall e (List.mem_cons_of_mem _ he)) ?_
              refine stepSnapshot_preserves_onceInv id ep s ?_ h
              have hm := hall _ (List.mem_cons_self _ _)
              simpa [nonEmptyUpdate, List.isEmpty_iff] using hm
          | other => simpa [nonEmptyUpdate] using hall _ (List.mem_cons_self _ _)
      | modified obj =>
          cases obj with
          | endpoints ep =>
              refine ih _ (fun e he => hall e (List.mem_cons_of_mem _ he)) ?_
              refine stepSnapshot_preserves_onceInv id ep s ?_ h
              have hm := hall _ (List.mem_cons_self _ _)
              simpa [nonEmptyUpdate, List.isEmpty_iff] using hm
          | other => simpa [nonEmptyUpdate] using hall _ (List.mem_cons_self _ _)
      | deleted => simpa [nonEmptyUpdate] using hall _ (List.mem_cons_self _ _)
      | errorEvent => simpa [nonEmptyUpdate] using hall _ (List.mem_cons_self _ _)

/-- Claim C2: over any sequence of Added/Modified events whose resolved
local-address set is non-empty at every step and where the first event's
first resolved address (the value recorded into `lastKnownGoodEndpoint`)
remains present in every later resolved set,
`sm.StartServicesLeaderElection` is invoked exactly once (`starts = 1`):
the first event takes the unset branch of line 91 and spawns the election,
and every later event either breaks out of the switch at line 108 or finds
the election already active at line 114. -/
theorem start_election_invoked_once (id : String) (svc : Service)
    (e0 : WatchEvent) (rest : List WatchEvent)
    (h0 : nonEmptyUpdate id e0 = true)
    (hrest : ∀ e ∈ rest, nonEmptyUpdate id e = true)
    (hpresent : ∀ e ∈ rest, (eventLocals id e0).headI ∈ eventLocals id e) :
    (runLoop id (e0 :: rest) (initState svc)).1.starts = 1 := by
  clear hpresent
  cases e0 with
  | added obj =>
      cases obj with
      | endpoints ep =>
          have hne : localendpoints id ep.subsets ≠ [] := by
            simpa [nonEmptyUpdate, List.isEmpty_iff] using h0
          have hinv := runLoop_preserves_onceInv id rest
            (stepSnapshot id ep (initState svc)) hrest
            (stepSnapshot_init_onceInv id ep svc hne)
          simpa [runLoop] using hinv.1
      | other => simp [nonEmptyUpdate] at h0
  | modified obj =>
      cases obj with
      | endpoints ep =>
          have hne : localendpoints id ep.subsets ≠ [] := by
            simpa [nonEmptyUpdate, List.isEmpty_iff] using h0
          have hinv := runLoop_preserves_onceInv id rest
            (stepSnapshot id ep (initState svc)) hrest
            (stepSnapshot_init_onceInv id ep svc hne)
          simpa [runLoop] using hinv.1
      | other => simp [nonEmptyUpdate] at h0
  | deleted => simp [nonEmptyUpdate] at h0
  | errorEvent => simp [nonEmptyUpdate] at h0

theorem start_election_invoked_once_witness :
    nonEmptyUpdate "node-1" (WatchEvent.added (WatchObject.endpoints epA)) = true ∧
    (runLoop "node-1"
        [WatchEvent.added (WatchObject.endpoints epA),
         WatchEvent.modified (WatchObject.endpoints epA)]
        (initState svcPlain)).1.starts = 1 :=
  ⟨by decide,
    start_election_invoked_once "node-1" svcPlain
      (WatchEvent.added (WatchObject.endpoints epA))
      [WatchEvent.modified (WatchObject.endpoints epA)]
      (by decide) (by decide) (by decide)⟩

theorem spawnElection_svcAnns (s : CtrlState) :
    (spawnElection s).svcAnns = s.svcAnns := by
  unfold spawnElection; split_ifs <;> rfl

theorem spawnElection_lkg (s : CtrlState) :
    (spawnElection s).lastKnownGoodEndpoint = s.lastKnownGoodEndpoint := by
  unfold spawnElection; split_ifs <;> rfl

theorem lookupKey_insertKey_self (m : AnnMap) (k v : String) :
    lookupKey (insertKey m k v) k = some v := by
  induction m with
  | nil => simp [insertKey, lookupKey]
  | cons p rest ih =>
      obtain ⟨k0, w⟩ := p
      by_cases h : k0 = k <;> simp [insertKey, lookupKey, h, ih]

theorem lookupKey_insertKey_other (m : AnnMap) (k v k' : String) (hk : k' ≠ k) :
    lookupKey (insertKey m k v) k' = lookupKey m k' := by
  induction m with
  | nil => simp [insertKey, lookupKey, Ne.symm hk]
  | cons p rest ih =>
      obtain ⟨k0, w⟩ := p
      by_cases h : k0 = k
      · subst h
        simp [insertKey, lookupKey, Ne.symm hk]
      · simp [insertKey, lookupKey, h, ih]

/-- The unset branch of lines 90-99 followed by the spawn block: record the
first resolved address, stage the annotation when the egress flag is set. -/
theorem stepSnapshot_unset (id : String) (ep : Endpoints) (s : CtrlState)
    (hunset : s.lastKnownGoodEndpoint = "")
    (hne : localendpoints id ep.subsets ≠ []) :
    stepSnapshot id ep s
      = spawnElection
          { s with
            lastKnownGoodEndpoint := (localendpoints id ep.subsets).headI
            svcAnns :=
              if lookupAnns s.svcAnns egressKey = some "true" then
                assignAnn s.svcAnns activeEndpointKey ((localendpoints id ep.subsets).headI)
              else s.svcAnns } := by
  simp [stepSnapshot, hunset, List.length_eq_zero, hne]

/-- Claim C8: when an Added/Modified event records the first resolved
address into `lastKnownGoodEndpoint` (lines 90-99), the recorded value is
the first resolved address; if the service's `kube-vip.io/egress`
annotation equals `"true"` the `kube-vip.io/active-endpoint` annotation is
staged with that address (other keys untouched); otherwise the service's
annotations are left unchanged by this step. -/
theorem egress_stages_active_endpoint (id : String) (ep : Endpoints) (s : CtrlState)
    (hunset : s.lastKnownGoodEndpoint = "")
    (hne : localendpoints id ep.subsets ≠ []) :
    (stepSnapshot id ep s).lastKnownGoodEndpoint = (localendpoints id ep.subsets).headI
  ∧ (lookupAnns s.svcAnns egressKey = some "true" →
       lookupAnns (stepSnapshot id ep s).svcAnns activeEndpointKey
         = some ((localendpoints id ep.subsets).headI)
     ∧ ∀ k, k ≠ activeEndpointKey →
         lookupAnns (stepSnapshot id ep s).svcAnns k = lookupAnns s.svcAnns k)
  ∧ (¬ lookupAnns s.svcAnns egressKey = some "true" →
       (stepSnapshot id ep s).svcAnns = s.svcAnns) := by
  rw [stepSnapshot_unset id ep s hunset hne]
  refine ⟨by rw [spawnElection_lkg], fun hegr => ⟨?_, fun k hk => ?_⟩, fun hegr => ?_⟩
  · rw [spawnElection_svcAnns]
    cases ha : s.svcAnns with
    | none => rw [ha] at hegr; simp [lookupAnns] at hegr
    | some m =>
        rw [ha] at hegr
        simp only [lookupAnns] at hegr
        simp [hegr, ha, assignAnn, lookupAnns, lookupKey_insertKey_self]
  · rw [spawnElection_svcAnns]
    cases ha : s.svcAnns with
    | none => rw [ha] at hegr; simp [lookupAnns] at hegr
    | some m =>
        rw [ha] at hegr
        simp only [lookupAnns] at hegr
        simp [hegr, ha, assignAnn, lookupAnns, lookupKey_insertKey_other m _ _ k hk]
  · rw [spawnElection_svcAnns]
    simp [hegr]

theorem egress_stages_active_endpoint_witness :
    lookupAnns
        (stepSnapshot "node-1" epA
          (CtrlState.mk "" false false 0 (some [(egressKey, "true")]))).svcAnns
        activeEndpointKey
      = some "10.0.0.5" :=
  ((egress_stages_active_endpoint "node-1" epA
      (CtrlState.mk "" false false 0 (some [(egressKey, "true")]))
      (by decide) (by decide)).2.1 (by decide)).1

/-- Kubernetes API errors as distinguished by `updateServiceEndpointAnnotation`:
`retry.RetryOnConflict` retries exactly when `apierrors.IsConflict` holds. -/
inductive ApiError where
  | conflict
  | notFound
  | otherErr
deriving DecidableEq, Repr

/-- `apierrors.IsConflict`. -/
def isConflictErr : ApiError → Bool
  | .conflict => true
  | _ => false

/-- `wait.Backoff` restricted to the field that decides control flow; the
delay fields (Duration, Factor, Jitter) do not change which attempts run. -/
structure Backoff where
  steps : Nat
deriving DecidableEq, Repr

/-- `retry.DefaultRetry` is `wait.Backoff{Steps: 5, Duration: 10ms,
Factor: 1.0, Jitter: 0.1}`: five attempts with short increasing delay. -/
def DefaultRetry : Backoff := ⟨5⟩

/-- Modelled from the spec: the retry engine behind
`retry.RetryOnConflict` (client-go's `retry.OnError` over
`wait.ExponentialBackoff`) is library code not under this repository's
source; per the spec (sections 4.4 and 6) it runs the attempt up to
`steps` times, stops with no error on success, remembers and retries a
retriable error, returns a non-retriable error immediately, and returns
the last retriable error once the budget is exhausted.  `fn i` is the
outcome of attempt `i` (`none` = success). -/
def onErrorRetry (retriable : ApiError → Bool) (fn : Nat → Option ApiError) :
    Nat → Nat → Option ApiError → Option ApiError
  | 0, _, lastErr => lastErr
  | steps + 1, i, lastErr =>
      match fn i with
      | none => none
      | some e =>
          if retriable e then onErrorRetry retriable fn steps (i + 1) (some e)
          else some e

/-- `retry.RetryOnConflict(backoff, fn)`. -/
def RetryOnConflict (b : Backoff) (fn : Nat → Option ApiError) : Option ApiError :=
  onErrorRetry isConflictErr fn b.steps 0 none

/-- The deep-copied service written by one attempt (lines 173-178): deep
copy the freshly fetched service, initialise the annotations map when it is
nil, then set the active-endpoint key. -/
def updateAttemptCopy (endpoint : String) (cur : Service) : Service :=
  let copy := if cur.anns = none then { cur with anns := some [] } else cur
  { copy with anns := some (insertKey (copy.anns.getD []) activeEndpointKey endpoint) }

/-- One attempt of the closure passed to `RetryOnConflict` (lines 160-193):
re-fetch the latest stored service (`getRes i`, line 163 — a fetch error is
returned as-is), build the updated deep copy, and submit it; `updRes i` is
the API server's verdict on the service written during attempt `i`. -/
def annotateAttempt (endpoint : String) (getRes : Nat → Except ApiError Service)
    (updRes : Nat → Service → Option ApiError) (i : Nat) : Option ApiError :=
  match getRes i with
  | .error e => some e
  | .ok cur => updRes i (updateAttemptCopy endpoint cur)

/-- `updateServiceEndpointAnnotation` (lines 159-199): the read-modify-write
under `retry.RetryOnConflict(retry.DefaultRetry, ...)`, with the API calls
of each attempt abstracted as oracles indexed by the attempt number. -/
def updateServiceEndpointAnnotation (endpoint : String)
    (getRes : Nat → Except ApiError Service)
    (updRes : Nat → Service → Option ApiError) : Option ApiError :=
  RetryOnConflict DefaultRetry (annotateAttempt endpoint getRes updRes)

theorem onErrorRetry_all_conflict (fn : Nat → Option ApiError) :
    ∀ steps i, (∀ j, j < steps → fn (i + j) = some ApiError.conflict) →
      onErrorRetry isConflictErr fn steps i (some ApiError.conflict)
        = some ApiError.conflict := by
  intro steps
  induction steps with
  | zero => intro i _; rfl
  | succ s ih =>
      intro i hconf
      have h0 : fn i = some ApiError.conflict := by
        simpa using hconf 0 (Nat.succ_pos s)
      simp only [onErrorRetry, h0, isConflictErr, if_true]
      exact ih (i + 1) fun j hj => by
        have := hconf (j + 1) (by omega)
        rwa [show i + (j + 1) = i + 1 + j by omega] at this

theorem onErrorRetry_first_break (fn : Nat → Option ApiError) :
    ∀ k steps i lastErr, k < steps →
      (∀ j, j < k → fn (i + j) = some ApiError.conflict) →
      (fn (i + k) = none → onErrorRetry isConflictErr fn steps i lastErr = none)
      ∧ (∀ e, fn (i + k) = some e → isConflictErr e = false →
          onErrorRetry isConflictErr fn steps i lastErr = some e) := by
  intro k
  induction k with
  | zero =>
      intro steps i lastErr hk _
      cases steps with
      | zero => omega
      | succ s =>
          constructor
          · intro h0
            rw [Nat.add_zero] at h0
            simp [onErrorRetry, h0]
          · intro e he hne
            rw [Nat.add_zero] at he
            simp [onErrorRetry, he, hne]
  | succ k ih =>
      intro steps i lastErr hk hconf
      cases steps with
      | zero => omega
      | succ s =>
          have h0 : fn i = some ApiError.conflict := by
            simpa using hconf 0 (Nat.succ_pos k)
          have hrec := ih s (i + 1) (some ApiError.conflict) (by omega)
            (fun j hj => by
              have := hconf (j + 1) (by omega)
              rwa [show i + (j + 1) = i + 1 + j by omega] at this)
          constructor
          · intro hnone
            simp only [onErrorRetry, h0, isConflictErr, if_true]
            exact hrec.1 (by rwa [show i + 1 + k = i + (k + 1) by omega])
          · intro e he hne
            simp only [onErrorRetry, h0, isConflictErr, if_true]
            exact hrec.2 e (by rwa [show i + 1 + k = i + (k + 1) by omega]) hne

/-- Claim C7: `updateServiceEndpointAnnotation` is a read-modify-write that
re-fetches the stored service on each attempt (`annotateAttempt` consults
`getRes i` on attempt `i`, line 163); it retries only on conflict errors,
bounded by `retry.DefaultRetry` (five attempts); if every attempt within
the budget conflicts, the conflict error is surfaced to the caller; a
non-conflict failure on any attempt is returned immediately without
further retries; and a successful attempt returns no error. -/
theorem updateServiceEndpointAnnotation_retry_semantics (endpoint : String)
    (getRes : Nat → Except ApiError Service)
    (updRes : Nat → Service → Option ApiError) :
    ((∀ i, i < DefaultRetry.steps →
        annotateAttempt endpoint getRes updRes i = some ApiError.conflict) →
      updateServiceEndpointAnnotation endpoint getRes updRes = some ApiError.conflict)
  ∧ (∀ k, k < DefaultRetry.steps →
      (∀ i, i < k → annotateAttempt endpoint getRes updRes i = some ApiError.conflict) →
        (annotateAttempt endpoint getRes updRes k = none →
          updateServiceEndpointAnnotation endpoint getRes updRes = none)
      ∧ (∀ e, annotateAttempt endpoint getRes updRes k = some e →
          isConflictErr e = false →
          updateServiceEndpointAnnotation endpoint getRes updRes = some e)) := by
  constructor
  · intro hall
    have h0 : annotateAttempt endpoint getRes updRes 0 = some ApiError.conflict :=
      hall 0 (by decide)
    show onErrorRetry isConflictErr (annotateAttempt endpoint getRes updRes) 5 0 none
        = some ApiError.conflict
    simp only [onErrorRetry, h0, isConflictErr, if_true]
    exact onErrorRetry_all_conflict (annotateAttempt endpoint getRes updRes) 4 1
      fun j hj => hall (1 + j) (by show 1 + j < 5; omega)
  · intro k hk hconf
    have := onErrorRetry_first_break (annotateAttempt endpoint getRes updRes) k 5 0 none
      (by simpa [DefaultRetry] using hk)
      (fun j hj => by simpa using hconf j hj)
    constructor
    · intro hnone
      exact this.1 (by simpa using hnone)
    · intro e he hne
      exact this.2 e (by simpa using he) hne

theorem updateServiceEndpointAnnotation_retry_witness :
    updateServiceEndpointAnnotation "1.2.3.4"
        (fun _ => Except.ok svcPlain) (fun _ _ => some ApiError.conflict)
      = some ApiError.conflict :=
  (updateServiceEndpointAnnotation_retry_semantics "1.2.3.4"
      (fun _ => Except.ok svcPlain) (fun _ _ => some ApiError.conflict)).1
    (by decide)

/-- Claim C10: for a freshly fetched stored service whose annotations map
is nil, the attempt still succeeds in setting `kube-vip.io/active-endpoint`:
lines 174-176 initialise an empty map on the deep copy before the write of
line 178, so the written copy always carries the key, and the overall call
returns no error when the server accepts the write. -/
theorem nil_annotations_initialized (endpoint : String) (svc : Service)
    (getRes : Nat → Except ApiError Service)
    (updRes : Nat → Service → Option ApiError)
    (hnil : svc.anns = none)
    (hget : getRes 0 = Except.ok svc)
    (hupd : updRes 0 (updateAttemptCopy endpoint svc) = none) :
    (updateAttemptCopy endpoint svc).anns = some [(activeEndpointKey, endpoint)]
  ∧ lookupAnns (updateAttemptCopy endpoint svc).anns activeEndpointKey = some endpoint
  ∧ updateServiceEndpointAnnotation endpoint getRes updRes = none := by
  have hcopy : (updateAttemptCopy endpoint svc).anns
      = some [(activeEndpointKey, endpoint)] := by
    simp [updateAttemptCopy, hnil, insertKey]
  refine ⟨hcopy, by simp [hcopy, lookupAnns, lookupKey], ?_⟩
  show onErrorRetry isConflictErr (annotateAttempt endpoint getRes updRes) 5 0 none = none
  simp [onErrorRetry, annotateAttempt, hget, hupd]

theorem nil_annotations_initialized_witness :
    updateServiceEndpointAnnotation "1.2.3.4"
        (fun _ => Except.ok (Service.mk "plndr" "default" none)) (fun _ _ => none)
      = none :=
  (nil_annotations_initialized "1.2.3.4" (Service.mk "plndr" "default" none)
      (fun _ => Except.ok (Service.mk "plndr" "default" none)) (fun _ _ => none)
      rfl rfl rfl).2.2

/-- Interleaving model of the stop path of `watchEndpoint`: the controller
loop's only stop primitive is `cancel()` on the shared context (lines 110
and 137), and the spawned election goroutine (lines 115-132) exits only
when it observes the cancellation on its own schedule.  `stopReturned`
records that the controller's `cancel()` call has returned (a
`context.CancelFunc` returns as soon as the context is marked done; it
does not wait for users of the context), and `taskRunning` records that
`StartServicesLeaderElection` has not yet returned. -/
structure RaceState where
  ctxCancelled : Bool
  taskRunning : Bool
  stopReturned : Bool
deriving DecidableEq, Repr

/-- Schedulable actions: the controller performs its `cancel()` call, or
the election goroutine observes the cancelled context and exits. -/
inductive RaceAction where
  | ctrlCancel
  | taskObserveCancel
deriving DecidableEq, Repr

def raceStep (s : RaceState) : RaceAction → RaceState
  | .ctrlCancel => { s with ctxCancelled := true, stopReturned := true }
  | .taskObserveCancel => if s.ctxCancelled then { s with taskRunning := false } else s

def raceRun : RaceState → List RaceAction → RaceState :=
  List.foldl raceStep

/-- State with an election task running and no stop issued yet. -/
def raceInit : RaceState := ⟨false, true, false⟩

/-- Claim C9, examined on the interleaving model of the stop path: in the
schedule where the controller has performed `cancel()` but the goroutine
has not yet been scheduled, the stop call has already returned while the
election task is still live — the code's stop is not synchronous; the task
exits only after a later `taskObserveCancel` step. -/
theorem stop_returns_before_task_exit :
    (raceRun raceInit [RaceAction.ctrlCancel]).stopReturned = true
  ∧ (raceRun raceInit [RaceAction.ctrlCancel]).taskRunning = true
  ∧ (raceRun raceInit
      [RaceAction.ctrlCancel, RaceAction.taskObserveCancel]).taskRunning = false := by
  decide

end KubeVip
